import Mathlib

/-!
Shallow embedding of django-auditlog (receivers.py and registry.py) together
with models of the parts the repository references but does not ship in this
snapshot (the field-diff routine and the log-entry sink), and proofs of the
functional properties of the registry wiring and the signal receivers.
-/

namespace Auditlog

/-! ## Basic data model -/

/-- A model instance snapshot: primary key (None allowed), field values,
the instance's string rendering, and its class name. Field values are
integers; what matters to the diff is equality and string rendering. -/
structure Instance where
  pk : Option Int
  fields : List (String × Int)
  strRepr : String
  className : String
deriving DecidableEq, Repr

/-- The action codes of LogEntry.Action. -/
inductive Action where
  | CREATE
  | UPDATE
  | DELETE
deriving DecidableEq, Repr

/-- Modelled from the spec: auditlog/models.py (the LogEntry record type and
its manager method log_create) is not in src; the spec describes it as "a
framework-managed record type with a manager method that assembles a log row
from an instance, action code, and serialized diff". A written log row keeps
the target instance's pk, the action code and the serialized changes. -/
structure LogEntryRecord where
  targetPk : Option Int
  action : Action
  changes : String
deriving DecidableEq, Repr

/-! ## The field-diff routine -/

/-- The field names of a snapshot's attribute bag. -/
def fieldNames (s : List (String × Int)) : List String :=
  s.map Prod.fst

/-- Look up a field's value in a snapshot; a missing field reads as None. -/
def getFieldValue (s : List (String × Int)) (f : String) : Option Int :=
  (s.find? (fun p => p.1 == f)).map Prod.snd

/-- Render a field value as a string, the way the diff routine stringifies
values (a missing value renders as "None"). -/
def renderValue : Option Int → String
  | none => "None"
  | some v => toString v

/-- Modelled from the spec: auditlog/diff.py (model_instance_diff) is not in
src; the spec says it "compares two object snapshots field-by-field and
produces a mapping from field name to (old, new) string pair": "iterate the
union of field names, compare old vs. new, emit a pair when unequal". -/
def diffFields (old new_ : List (String × Int)) : List (String × String × String) :=
  ((fieldNames old ++ fieldNames new_).dedup).filterMap (fun f =>
    let o := getFieldValue old f
    let n := getFieldValue new_ f
    if o ≠ n then some (f, renderValue o, renderValue n) else none)

/-- Modelled from the spec: model_instance_diff as called by the receivers,
where either snapshot may be None (log_create passes None as old, log_delete
passes None as new); a None snapshot contributes no field names and every
field reads as None on that side. -/
def model_instance_diff (old new_ : Option (List (String × Int))) :
    List (String × String × String) :=
  diffFields (old.getD []) (new_.getD [])

/-- Modelled from the spec: json.dumps of the diff mapping (the standard
library serializer is outside the repository); a deterministic rendering of
the mapping from field name to (old, new) string pair. -/
def jsonDumpsDiff (l : List (String × String × String)) : String :=
  "\x7b" ++ String.intercalate ", "
    (l.map (fun t => "\"" ++ t.1 ++ "\": [\"" ++ t.2.1 ++ "\", \"" ++ t.2.2 ++ "\"]"))
  ++ "\x7d"

/-! ## Per-thread flags (FlagLocals) and the can_* properties -/

/-- The thread-local flag record set up by AuditlogModelRegistry.__init__. -/
structure Flags where
  enable_all : Bool
  enable_create : Bool
  enable_update : Bool
  enable_delete : Bool
deriving DecidableEq, Repr

/-- can_create property: enable_create and enable_all. -/
def can_create (f : Flags) : Bool :=
  f.enable_create && f.enable_all

/-- can_update property: enable_update and enable_all. -/
def can_update (f : Flags) : Bool :=
  f.enable_update && f.enable_all

/-- can_delete property: enable_delete and enable_all. -/
def can_delete (f : Flags) : Bool :=
  f.enable_delete && f.enable_all

/-! ## Receivers (receivers.py)

Each receiver returns the list of log rows it writes; the flags record is the
state of the process-wide registry at invocation time. -/

/-- log_create: writes a CREATE row when the instance was just created and
can_create holds; the diff is model_instance_diff(None, instance). -/
def log_create (created : Bool) (inst : Instance) (flags : Flags) :
    List LogEntryRecord :=
  if created && can_create flags then
    [{ targetPk := inst.pk, action := Action.CREATE,
       changes := jsonDumpsDiff (model_instance_diff none (some inst.fields)) }]
  else []

/-- log_update: when the instance has a pk and can_update holds, fetch the
previous record by pk (DoesNotExist writes nothing), diff it against the new
state, and write an UPDATE row only if the diff is non-empty. `db` models
sender.objects.get(pk=...). -/
def log_update (db : Int → Option Instance) (inst : Instance) (flags : Flags) :
    List LogEntryRecord :=
  match inst.pk with
  | none => []
  | some pk =>
    if can_update flags then
      match db pk with
      | none => []
      | some old =>
        let changes := model_instance_diff (some old.fields) (some inst.fields)
        if changes.isEmpty then []
        else
          [{ targetPk := inst.pk, action := Action.UPDATE,
             changes := jsonDumpsDiff changes }]
    else []

/-- log_delete: when the instance has a pk and can_delete holds, writes a
DELETE row with the diff model_instance_diff(instance, None). -/
def log_delete (inst : Instance) (flags : Flags) : List LogEntryRecord :=
  match inst.pk with
  | none => []
  | some _ =>
    if can_delete flags then
      [{ targetPk := inst.pk, action := Action.DELETE,
         changes := jsonDumpsDiff (model_instance_diff (some inst.fields) none) }]
    else []

/-! ## log_m2m_changed (receivers.py) -/

/-- Python substring test: whether the character list contains "post_". -/
def containsPost : List Char → Bool
  | 'p' :: 'o' :: 's' :: 't' :: '_' :: _ => true
  | _ :: rest => containsPost rest
  | [] => false

/-- Python str.replace("post_", ""): remove every (left-to-right,
non-overlapping) occurrence of "post_". -/
def stripPost : List Char → List Char
  | 'p' :: 'o' :: 's' :: 't' :: '_' :: rest => stripPost rest
  | c :: rest => c :: stripPost rest
  | [] => []

/-- The action-suffix dictionary lookup; a key outside add/clear/remove
raises KeyError, modelled as none. -/
def actionEnumLookup (suffix : String) : Option Action :=
  if suffix == "add" || suffix == "clear" || suffix == "remove" then
    some Action.UPDATE
  else none

/-- Python truthiness of pk_set (None and the empty set are falsy). -/
def pkSetTruthy : Option (List Int) → Bool
  | none => false
  | some l => !l.isEmpty

/-- model.objects.filter(pk__in=pk_set): the parent instances whose pk lies
in pk_set. -/
def matchedParents (modelDb : List Instance) (pks : List Int) : List Instance :=
  modelDb.filter (fun p =>
    match p.pk with
    | some k => pks.contains k
    | none => false)

/-- Render a pk for the m2m changes payload (json.dumps of None is null). -/
def jsonOptInt : Option Int → String
  | none => "null"
  | some v => toString v

/-- Render a string for the m2m changes payload. -/
def jsonStr (s : String) : String :=
  "\"" ++ s ++ "\""

/-- The log row written for one (parent, child) pair by log_m2m_changed:
an entry on the parent with the serialized id/suffix/type/through payload
(the component order flips between add and remove/clear). -/
def mkM2MEntry (parent child : Instance) (suffix : String) (enum : Action)
    (senderModelName : String) : LogEntryRecord :=
  { targetPk := parent.pk
    action := enum
    changes :=
      "\x7b\"id\": ["
      ++ jsonOptInt (if suffix == "add" then child.pk else parent.pk) ++ ", "
      ++ jsonOptInt (if suffix == "add" then parent.pk else child.pk) ++ "], "
      ++ jsonStr suffix ++ ": ["
      ++ jsonStr (if suffix == "add" then child.strRepr else parent.strRepr) ++ ", "
      ++ jsonStr (if suffix == "add" then parent.strRepr else child.strRepr) ++ "], "
      ++ "\"type\": ["
      ++ jsonStr (if suffix == "add" then child.className else parent.className) ++ ", "
      ++ jsonStr (if suffix == "add" then parent.className else child.className) ++ "], "
      ++ "\"through\": [" ++ jsonStr senderModelName ++ ", null]\x7d" }

/-- The try-block body of log_m2m_changed: strip "post_" from the action,
look the suffix up in the action dictionary (KeyError escapes as an error),
and build one UPDATE row per parent matched by pk_set, the lone child being
the signalling instance. -/
def log_m2m_changed_body (modelDb : List Instance) (inst : Instance)
    (action : String) (pks : List Int) (senderModelName : String) :
    Except String (List LogEntryRecord) :=
  let suffix := String.mk (stripPost action.toList)
  match actionEnumLookup suffix with
  | none => Except.error "KeyError"
  | some enum =>
    Except.ok ((matchedParents modelDb pks).map
      (fun parent => mkM2MEntry parent inst suffix enum senderModelName))

/-- log_m2m_changed: runs only when the action contains "post_" and pk_set
is truthy; any exception inside the body is caught (and logged), writing
nothing. Note: it consults no registry flag. -/
def log_m2m_changed (modelDb : List Instance) (inst : Instance)
    (action : String) (pk_set : Option (List Int)) (senderModelName : String) :
    List LogEntryRecord :=
  if containsPost action.toList && pkSetTruthy pk_set then
    match log_m2m_changed_body modelDb inst action (pk_set.getD []) senderModelName with
    | Except.ok l => l
    | Except.error _ => []
  else []

/-! ## The registry (registry.py) -/

/-- The four framework signals the registry wires. -/
inductive Signal where
  | post_save
  | pre_save
  | post_delete
  | m2m_changed
deriving DecidableEq, Repr

/-- The receivers a signal can map to (custom receivers are opaque). -/
inductive Receiver where
  | rLogCreate
  | rLogUpdate
  | rLogDelete
  | rLogM2M
  | rCustom (n : Nat)
deriving DecidableEq, Repr

/-- A Python class passed to register: only its identity and whether it is a
subclass of Model matter to the registry. -/
structure MClass where
  id : Nat
  isModel : Bool
deriving DecidableEq, Repr

/-- The per-model tracking configuration stored in _registry. -/
structure TrackConfig where
  include_fields : List String
  exclude_fields : List String
  mapping_fields : List (String × String)
deriving DecidableEq, Repr

/-- The registry's state: _registry (model to config dict), the connected
(signal, model) pairs keyed by _dispatch_uid (the registry class component is
constant, so a uid is the (signal, model) pair), _signals, the thread-local
flags, and the disable_auditlog setting fixed at import time. -/
structure RegistryState where
  registry : List (MClass × TrackConfig)
  connections : List (Signal × MClass)
  signals : List (Signal × Receiver)
  flags : Flags
  disable_auditlog : Bool
deriving DecidableEq, Repr

/-- Dict insertion (d[k] = v): replace the value when the key is present,
append otherwise. -/
def sigInsert (d : List (Signal × Receiver)) (kv : Signal × Receiver) :
    List (Signal × Receiver) :=
  if (d.map Prod.fst).contains kv.1 then
    d.map (fun p => if p.1 == kv.1 then kv else p)
  else d ++ [kv]

/-- Dict update (d.update(custom)): insert every pair of the update, in
order. -/
def sigUpdate (d upd : List (Signal × Receiver)) : List (Signal × Receiver) :=
  upd.foldl sigInsert d

/-- The signal dict built by AuditlogModelRegistry.__init__: empty when
disable_auditlog is set; otherwise post_save/pre_save/post_delete are mapped
when the corresponding constructor argument is truthy, m2m_changed is always
mapped, and a custom dict is merged last. -/
def initSignals (create update delete : Bool) (disable : Bool)
    (custom : List (Signal × Receiver)) : List (Signal × Receiver) :=
  if disable then []
  else
    sigUpdate
      ((if create then [(Signal.post_save, Receiver.rLogCreate)] else [])
        ++ (if update then [(Signal.pre_save, Receiver.rLogUpdate)] else [])
        ++ (if delete then [(Signal.post_delete, Receiver.rLogDelete)] else [])
        ++ [(Signal.m2m_changed, Receiver.rLogM2M)])
      custom

/-- AuditlogModelRegistry.__init__: fresh registry and connection state,
flags from the constructor arguments (enable_all is their conjunction), and
the signal dict built by initSignals. -/
def initState (create update delete : Bool) (disable : Bool)
    (custom : List (Signal × Receiver)) : RegistryState :=
  { registry := []
    connections := []
    signals := initSignals create update delete disable custom
    flags :=
      { enable_all := create && update && delete
        enable_create := create
        enable_update := update
        enable_delete := delete }
    disable_auditlog := disable }

/-- Signal.connect with a dispatch_uid: the framework ignores a connect whose
uid is already present, so connecting is insert-if-absent. -/
def connectOne (conns : List (Signal × MClass)) (sig : Signal) (cls : MClass) :
    List (Signal × MClass) :=
  if conns.contains (sig, cls) then conns else conns ++ [(sig, cls)]

/-- Signal.disconnect with a dispatch_uid: remove the connection with that
uid. -/
def disconnectOne (conns : List (Signal × MClass)) (sig : Signal) (cls : MClass) :
    List (Signal × MClass) :=
  conns.filter (fun p => p ≠ (sig, cls))

/-- _connect_signals: a no-op under disable_auditlog; otherwise connect every
signal of the signal dict for the model, uid-keyed. -/
def connect_signals (s : RegistryState) (cls : MClass) : RegistryState :=
  if s.disable_auditlog then s
  else
    { s with
      connections := s.signals.foldl (fun c sg => connectOne c sg.1 cls) s.connections }

/-- _disconnect_signals: a no-op under disable_auditlog; otherwise disconnect
every signal of the signal dict for the model. -/
def disconnect_signals (s : RegistryState) (cls : MClass) : RegistryState :=
  if s.disable_auditlog then s
  else
    { s with
      connections := s.signals.foldl (fun c sg => disconnectOne c sg.1 cls) s.connections }

/-- Dict assignment _registry[cls] = cfg. -/
def regInsert (reg : List (MClass × TrackConfig)) (cls : MClass)
    (cfg : TrackConfig) : List (MClass × TrackConfig) :=
  if (reg.map Prod.fst).contains cls then
    reg.map (fun p => if p.1 == cls then (cls, cfg) else p)
  else reg ++ [(cls, cfg)]

/-- Dict deletion del _registry[cls] (for a present key). -/
def regErase (reg : List (MClass × TrackConfig)) (cls : MClass) :
    List (MClass × TrackConfig) :=
  reg.filter (fun p => p.1 ≠ cls)

/-- contains: whether the model is registered. -/
def contains (s : RegistryState) (cls : MClass) : Bool :=
  (s.registry.map Prod.fst).contains cls

/-- The exceptions the registry raises. -/
inductive RegError where
  | typeError
  | keyError
deriving DecidableEq, Repr

/-- The outcome of a registry call: the exception raised, if any, and the
state after the call (mutations made before the raise persist). -/
structure RegResult where
  err : Option RegError
  state : RegistryState
deriving DecidableEq, Repr

/-- register (direct call, model given): raise TypeError for a non-Model
class, leaving the state untouched; otherwise store the tracking
configuration and connect the signals. -/
def register (s : RegistryState) (cls : MClass) (cfg : TrackConfig) : RegResult :=
  if cls.isModel then
    { err := none
      state := connect_signals { s with registry := regInsert s.registry cls cfg } cls }
  else { err := some RegError.typeError, state := s }

/-- register_m2m (direct call): raise TypeError for a non-Model class; under
disable_auditlog return without doing anything; otherwise look up the
m2m_changed receiver in the signal dict (KeyError if absent) and connect it
for the model, without touching _registry. -/
def register_m2m (s : RegistryState) (cls : MClass) : RegResult :=
  if cls.isModel then
    if s.disable_auditlog then { err := none, state := s }
    else
      match s.signals.find? (fun p => p.1 == Signal.m2m_changed) with
      | none => { err := some RegError.keyError, state := s }
      | some _ =>
        { err := none
          state :=
            { s with connections := connectOne s.connections Signal.m2m_changed cls } }
  else { err := some RegError.typeError, state := s }

/-- unregister: delete the model from _registry and disconnect its signals;
a KeyError from the deletion (model absent) is swallowed and nothing else
happens. -/
def unregister (s : RegistryState) (cls : MClass) : RegistryState :=
  if contains s cls then
    disconnect_signals { s with registry := regErase s.registry cls } cls
  else s

/-- disable_signals: clear enable_all; with disconnect=True also disconnect
the signals of every registered model. -/
def disable_signals (s : RegistryState) (disconnect : Bool) : RegistryState :=
  let s' := { s with flags := { s.flags with enable_all := false } }
  if disconnect then s'.registry.foldl (fun st p => disconnect_signals st p.1) s'
  else s'

/-- enable_signals: set enable_all; with reconnect=True also reconnect the
signals of every registered model. -/
def enable_signals (s : RegistryState) (reconnect : Bool) : RegistryState :=
  let s' := { s with flags := { s.flags with enable_all := true } }
  if reconnect then s'.registry.foldl (fun st p => connect_signals st p.1) s'
  else s'

/-! ## Concrete example data -/

/-- An empty tracking configuration. -/
def cfg0 : TrackConfig :=
  { include_fields := [], exclude_fields := [], mapping_fields := [] }

/-- A class that is a subclass of Model. -/
def mA : MClass := { id := 1, isModel := true }

/-- A class that is not a subclass of Model. -/
def mBad : MClass := { id := 2, isModel := false }

/-- A stored instance with pk 1 and field a = 1. -/
def inst0 : Instance :=
  { pk := some 1, fields := [("a", 1)], strRepr := "obj1", className := "M" }

/-- The same instance with field a changed to 2. -/
def inst1 : Instance :=
  { pk := some 1, fields := [("a", 2)], strRepr := "obj1", className := "M" }

/-- A database holding inst0 under pk 1. -/
def db0 : Int → Option Instance :=
  fun k => if k == 1 then some inst0 else none

/-- All flags on. -/
def flagsAllOn : Flags :=
  { enable_all := true, enable_create := true, enable_update := true, enable_delete := true }

/-- Flags after disable_signals: enable_all off. -/
def flagsDisabled : Flags :=
  { enable_all := false, enable_create := true, enable_update := true, enable_delete := true }

/-- Flags with only update logging turned off. -/
def flagsNoUpdate : Flags :=
  { enable_all := true, enable_create := true, enable_update := false, enable_delete := true }

/-- A one-row table for the m2m parent model. -/
def modelDb0 : List Instance :=
  [{ pk := some 1, fields := [], strRepr := "p1", className := "P" }]

/-- The registry state right after AuditlogModelRegistry() with defaults. -/
def sInit : RegistryState := initState true true true false []

/-- The state after register_m2m(mA) on the fresh registry: mA has an
m2m_changed connection but is not registered. -/
def s5 : RegistryState := (register_m2m sInit mA).state

/-- The fresh registry built with disable_auditlog set. -/
def sInitDisabled : RegistryState := initState true true true true []

/-! ## Helper lemmas on the connection folds -/

theorem connectOne_mem (conns : List (Signal × MClass)) (sig : Signal)
    (cls : MClass) (x : Signal × MClass) :
    x ∈ connectOne conns sig cls ↔ x ∈ conns ∨ x = (sig, cls) := by
  unfold connectOne
  split
  · rename_i h
    constructor
    · exact Or.inl
    · rintro (hx | rfl)
      · exact hx
      · simpa using h
  · simp

theorem connectAll_mem (sigs : List (Signal × Receiver)) (cls : MClass)
    (conns : List (Signal × MClass)) (x : Signal × MClass) :
    x ∈ sigs.foldl (fun c sg => connectOne c sg.1 cls) conns ↔
      x ∈ conns ∨ (x.1 ∈ sigs.map Prod.fst ∧ x.2 = cls) := by
  induction sigs generalizing conns with
  | nil => simp
  | cons sg rest ih =>
    simp only [List.foldl_cons, ih, connectOne_mem, List.map_cons, List.mem_cons]
    constructor
    · rintro ((hx | rfl) | hrest)
      · exact Or.inl hx
      · exact Or.inr ⟨Or.inl rfl, rfl⟩
      · exact Or.inr ⟨Or.inr hrest.1, hrest.2⟩
    · rintro (hx | ⟨hs | hs, h2⟩)
      · exact Or.inl (Or.inl hx)
      · left; right
        obtain ⟨x1, x2⟩ := x
        simp_all
      · exact Or.inr ⟨hs, h2⟩

theorem connectOne_eq_append (conns : List (Signal × MClass)) (sig : Signal)
    (cls : MClass) :
    ∃ e, connectOne conns sig cls = conns ++ e ∧ ∀ x ∈ e, x = (sig, cls) := by
  unfold connectOne
  split
  · exact ⟨[], by simp⟩
  · exact ⟨[(sig, cls)], rfl, by simp⟩

theorem connectAll_structure (sigs : List (Signal × Receiver)) (cls : MClass)
    (conns : List (Signal × MClass)) :
    ∃ extra, sigs.foldl (fun c sg => connectOne c sg.1 cls) conns = conns ++ extra ∧
      ∀ x ∈ extra, x.1 ∈ sigs.map Prod.fst ∧ x.2 = cls := by
  induction sigs generalizing conns with
  | nil => exact ⟨[], by simp⟩
  | cons sg rest ih =>
    simp only [List.foldl_cons]
    obtain ⟨e1, he1, hp1⟩ := connectOne_eq_append conns sg.1 cls
    obtain ⟨extra, heq, hprop⟩ := ih (connectOne conns sg.1 cls)
    rw [he1, List.append_assoc] at heq
    refine ⟨e1 ++ extra, by rw [he1]; exact heq, ?_⟩
    intro x hx
    rcases List.mem_append.mp hx with h1 | h2
    · rw [hp1 x h1]
      exact ⟨by simp, rfl⟩
    · obtain ⟨ha, hb⟩ := hprop x h2
      exact ⟨by simp [ha], hb⟩

theorem connectOne_nodup (conns : List (Signal × MClass)) (sig : Signal)
    (cls : MClass) (h : conns.Nodup) : (connectOne conns sig cls).Nodup := by
  unfold connectOne
  split
  · exact h
  · rename_i hmem
    simp only [List.elem_eq_mem, decide_eq_true_eq] at hmem
    simpa [List.nodup_append, h] using hmem

theorem connectAll_nodup (sigs : List (Signal × Receiver)) (cls : MClass)
    (conns : List (Signal × MClass)) (h : conns.Nodup) :
    (sigs.foldl (fun c sg => connectOne c sg.1 cls) conns).Nodup := by
  induction sigs generalizing conns with
  | nil => exact h
  | cons sg rest ih => exact ih _ (connectOne_nodup _ _ _ h)

theorem disconnectAll_eq_filter (sigs : List (Signal × Receiver)) (cls : MClass)
    (conns : List (Signal × MClass)) :
    sigs.foldl (fun c sg => disconnectOne c sg.1 cls) conns =
      conns.filter (fun x => !((sigs.map Prod.fst).contains x.1 && x.2 == cls)) := by
  induction sigs generalizing conns with
  | nil => simp
  | cons sg rest ih =>
    rw [List.foldl_cons, ih, disconnectOne, List.filter_filter]
    apply List.filter_congr
    intro x _
    obtain ⟨x1, x2⟩ := x
    by_cases h1 : x1 = sg.1 <;> by_cases h2 : x2 = cls <;>
      simp [h1, h2, Prod.ext_iff, List.elem_eq_mem, beq_eq_decide]

theorem disconnectAll_mem (sigs : List (Signal × Receiver)) (cls : MClass)
    (conns : List (Signal × MClass)) (x : Signal × MClass) :
    x ∈ sigs.foldl (fun c sg => disconnectOne c sg.1 cls) conns ↔
      x ∈ conns ∧ ¬(x.1 ∈ sigs.map Prod.fst ∧ x.2 = cls) := by
  rw [disconnectAll_eq_filter, List.mem_filter]
  apply and_congr_right
  intro _
  obtain ⟨x1, x2⟩ := x
  by_cases h1 : x1 ∈ sigs.map Prod.fst <;> by_cases h2 : x2 = cls <;>
    simp [h1, h2, List.elem_eq_mem]

/-! ## Helper lemmas on registry state fields -/

theorem connect_signals_registry (s : RegistryState) (cls : MClass) :
    (connect_signals s cls).registry = s.registry := by
  unfold connect_signals; split <;> rfl

theorem connect_signals_signals (s : RegistryState) (cls : MClass) :
    (connect_signals s cls).signals = s.signals := by
  unfold connect_signals; split <;> rfl

theorem connect_signals_flags (s : RegistryState) (cls : MClass) :
    (connect_signals s cls).flags = s.flags := by
  unfold connect_signals; split <;> rfl

theorem disconnect_signals_registry (s : RegistryState) (cls : MClass) :
    (disconnect_signals s cls).registry = s.registry := by
  unfold disconnect_signals; split <;> rfl

theorem disconnect_signals_flags (s : RegistryState) (cls : MClass) :
    (disconnect_signals s cls).flags = s.flags := by
  unfold disconnect_signals; split <;> rfl

theorem foldl_disconnect_flags (l : List (MClass × TrackConfig)) (s : RegistryState) :
    (l.foldl (fun st p => disconnect_signals st p.1) s).flags = s.flags := by
  induction l generalizing s with
  | nil => rfl
  | cons p rest ih => rw [List.foldl_cons, ih, disconnect_signals_flags]

theorem foldl_connect_flags (l : List (MClass × TrackConfig)) (s : RegistryState) :
    (l.foldl (fun st p => connect_signals st p.1) s).flags = s.flags := by
  induction l generalizing s with
  | nil => rfl
  | cons p rest ih => rw [List.foldl_cons, ih, connect_signals_flags]

theorem disable_signals_flags (s : RegistryState) (b : Bool) :
    (disable_signals s b).flags = { s.flags with enable_all := false } := by
  unfold disable_signals
  split
  · rw [foldl_disconnect_flags]
  · rfl

theorem enable_signals_flags (s : RegistryState) (b : Bool) :
    (enable_signals s b).flags = { s.flags with enable_all := true } := by
  unfold enable_signals
  split
  · rw [foldl_connect_flags]
  · rfl

/-! ## Helper lemmas on the registry dict -/

theorem contains_iff (s : RegistryState) (cls : MClass) :
    contains s cls = true ↔ cls ∈ s.registry.map Prod.fst := by
  simp [contains, List.elem_eq_mem]

theorem contains_false_iff (s : RegistryState) (cls : MClass) :
    contains s cls = false ↔ cls ∉ s.registry.map Prod.fst := by
  rw [← contains_iff]
  cases contains s cls <;> simp

theorem regInsert_mem_keys (reg : List (MClass × TrackConfig)) (cls : MClass)
    (cfg : TrackConfig) : cls ∈ (regInsert reg cls cfg).map Prod.fst := by
  unfold regInsert
  split
  · rename_i h
    simp only [List.elem_eq_mem, decide_eq_true_eq, List.mem_map] at h
    obtain ⟨p, hp, hfst⟩ := h
    refine List.mem_map.mpr ⟨(cls, cfg), ?_, rfl⟩
    refine List.mem_map.mpr ⟨p, hp, ?_⟩
    simp [hfst]
  · simp

theorem regInsert_of_not_mem (reg : List (MClass × TrackConfig)) (cls : MClass)
    (cfg : TrackConfig) (h : cls ∉ reg.map Prod.fst) :
    regInsert reg cls cfg = reg ++ [(cls, cfg)] := by
  unfold regInsert
  rw [if_neg]
  simpa [List.elem_eq_mem] using h

theorem regErase_not_mem_keys (reg : List (MClass × TrackConfig)) (cls : MClass) :
    cls ∉ (regErase reg cls).map Prod.fst := by
  unfold regErase
  intro h
  obtain ⟨p, hp, hfst⟩ := List.mem_map.mp h
  have := List.of_mem_filter hp
  simp only [decide_eq_true_eq] at this
  exact this hfst

theorem regErase_append_self (reg : List (MClass × TrackConfig)) (cls : MClass)
    (cfg : TrackConfig) (h : cls ∉ reg.map Prod.fst) :
    regErase (reg ++ [(cls, cfg)]) cls = reg := by
  unfold regErase
  rw [List.filter_append]
  have h1 : reg.filter (fun p => p.1 ≠ cls) = reg := by
    apply List.filter_eq_self.mpr
    intro p hp
    simp only [ne_eq, decide_eq_true_eq]
    intro hfst
    exact h (List.mem_map.mpr ⟨p, hp, hfst⟩)
  have h2 : [((cls, cfg) : MClass × TrackConfig)].filter (fun p => p.1 ≠ cls) = [] := by
    simp
  rw [h1, h2, List.append_nil]

/-! ## Helper lemmas on the diff and the m2m receiver -/

theorem filterMap_keys_sublist (g : String → Option (String × String × String))
    (hg : ∀ a x, g a = some x → x.1 = a) (l : List String) :
    ((l.filterMap g).map Prod.fst).Sublist l := by
  induction l with
  | nil => simp
  | cons a t ih =>
    rw [List.filterMap_cons]
    cases h : g a with
    | none => exact ih.cons a
    | some x =>
      rw [List.map_cons, hg a x h]
      exact ih.cons₂ a

theorem actionEnumLookup_eq_update (suffix : String) (a : Action)
    (h : actionEnumLookup suffix = some a) : a = Action.UPDATE := by
  unfold actionEnumLookup at h
  split at h
  · injection h with h'
    exact h'.symm
  · exact absurd h (by simp)

/-! ## Claim theorems -/

/-- C1: for every pair of object snapshots (old, new), model_instance_diff
returns a mapping whose keys are exactly the field names in the union of the
two snapshots' field names whose old and new values are unequal, and maps
each such field name to the pair of the old and the new value rendered as
strings. (Keys are exact: the membership characterization plus no duplicate
keys.) -/
theorem C1_model_instance_diff_correct (old new_ : List (String × Int))
    (f vo vn : String) :
    ((f, vo, vn) ∈ model_instance_diff (some old) (some new_) ↔
      (f ∈ fieldNames old ∨ f ∈ fieldNames new_) ∧
        getFieldValue old f ≠ getFieldValue new_ f ∧
        vo = renderValue (getFieldValue old f) ∧
        vn = renderValue (getFieldValue new_ f)) ∧
    ((model_instance_diff (some old) (some new_)).map Prod.fst).Nodup := by
  constructor
  · simp only [model_instance_diff, Option.getD_some, diffFields, List.mem_filterMap,
      List.mem_dedup, List.mem_append]
    constructor
    · rintro ⟨a, ha, hfa⟩
      split at hfa
      · rename_i hne
        have h' : a = f ∧ renderValue (getFieldValue old a) = vo ∧
            renderValue (getFieldValue new_ a) = vn := by
          simpa [Prod.ext_iff] using hfa
        obtain ⟨rfl, h2, h3⟩ := h'
        exact ⟨ha, hne, h2.symm, h3.symm⟩
      · exact absurd hfa (by simp)
    · rintro ⟨hmem, hne, hvo, hvn⟩
      refine ⟨f, hmem, ?_⟩
      rw [if_pos hne, hvo, hvn]
  · unfold model_instance_diff diffFields
    simp only [Option.getD_some]
    refine List.Sublist.nodup (filterMap_keys_sublist _ ?_ _) (List.nodup_dedup _)
    intro a x h
    split at h
    · injection h with h'
      rw [← h']
    · exact absurd h (by simp)

/-- C1 witness: a concrete diff containing exactly the changed field. -/
theorem C1_model_instance_diff_correct_witness :
    ("a", "1", "2") ∈ model_instance_diff (some [("a", 1)]) (some [("a", 2)]) :=
  (C1_model_instance_diff_correct [("a", 1)] [("a", 2)] "a" "1" "2").1.mpr
    ⟨Or.inl (by decide), by decide, by decide, by decide⟩

/-- C2 counterexample: the claim quantifies over all four receivers, but
log_m2m_changed consults no registry flag: with can_update false it still
writes an (UPDATE) entry for a post_add event with a non-empty pk_set. -/
theorem C2_counterexample :
    can_update flagsNoUpdate = false ∧
    log_m2m_changed modelDb0 inst1 "post_add" (some [1]) "m_through" ≠ [] := by
  constructor
  · decide
  · decide

/-- C2 (amended): the three lifecycle receivers are guarded by the registry
flags: log_create writes nothing unless can_create, log_update nothing
unless can_update, log_delete nothing unless can_delete. (log_m2m_changed is
not guarded by any flag.) -/
theorem C2_receiver_guards (created : Bool) (inst : Instance)
    (db : Int → Option Instance) (flags : Flags) :
    (can_create flags = false → log_create created inst flags = []) ∧
    (can_update flags = false → log_update db inst flags = []) ∧
    (can_delete flags = false → log_delete inst flags = []) := by
  refine ⟨?_, ?_, ?_⟩ <;> intro h
  · simp [log_create, h]
  · unfold log_update
    cases inst.pk <;> simp [h]
  · unfold log_delete
    cases inst.pk <;> simp [h]

/-- C2 witness: with enable_all cleared none of the three lifecycle
receivers writes anything. -/
theorem C2_receiver_guards_witness :
    log_create true inst1 flagsDisabled = [] ∧
    log_update db0 inst1 flagsDisabled = [] ∧
    log_delete inst1 flagsDisabled = [] :=
  ⟨(C2_receiver_guards true inst1 db0 flagsDisabled).1 (by decide),
   (C2_receiver_guards true inst1 db0 flagsDisabled).2.1 (by decide),
   (C2_receiver_guards true inst1 db0 flagsDisabled).2.2 (by decide)⟩

/-- C3: for every boolean constructor arguments, when auditlog is not
disabled, __init__ builds a signal map containing post_save -> log_create
iff create, pre_save -> log_update iff update, post_delete -> log_delete iff
delete, and always m2m_changed -> log_m2m_changed; and register then
connects exactly the signals of that map for the model. -/
theorem C3_init_signal_map (c u d : Bool) (cls : MClass) (cfg : TrackConfig)
    (sig : Signal) (h : cls.isModel = true) :
    ((Signal.post_save, Receiver.rLogCreate) ∈ initSignals c u d false [] ↔ c = true) ∧
    ((Signal.pre_save, Receiver.rLogUpdate) ∈ initSignals c u d false [] ↔ u = true) ∧
    ((Signal.post_delete, Receiver.rLogDelete) ∈ initSignals c u d false [] ↔ d = true) ∧
    (Signal.m2m_changed, Receiver.rLogM2M) ∈ initSignals c u d false [] ∧
    ((sig, cls) ∈ (register (initState c u d false []) cls cfg).state.connections ↔
      sig ∈ (initSignals c u d false []).map Prod.fst) := by
  refine ⟨?_, ?_, ?_, ?_, ?_⟩
  · cases c <;> cases u <;> cases d <;> decide
  · cases c <;> cases u <;> cases d <;> decide
  · cases c <;> cases u <;> cases d <;> decide
  · cases c <;> cases u <;> cases d <;> decide
  · have hc : (register (initState c u d false []) cls cfg).state.connections =
        List.foldl (fun cc sg => connectOne cc sg.1 cls) [] (initSignals c u d false []) := by
      rw [register]
      simp [h, connect_signals, initState]
    rw [hc, connectAll_mem]
    simp

/-- C3 witness: at the default constructor arguments the map holds all four
signals and registering mA connects its post_save receiver. -/
theorem C3_init_signal_map_witness :
    (Signal.m2m_changed, Receiver.rLogM2M) ∈ initSignals true true true false [] ∧
    ((Signal.post_save, mA) ∈
        (register (initState true true true false []) mA cfg0).state.connections ↔
      Signal.post_save ∈ (initSignals true true true false []).map Prod.fst) :=
  ⟨(C3_init_signal_map true true true mA cfg0 Signal.post_save (by decide)).2.2.2.1,
   (C3_init_signal_map true true true mA cfg0 Signal.post_save (by decide)).2.2.2.2⟩

/-- C4: register/unregister maintain the registered-iff-connected invariant:
after register(m), m is registered and every signal of the signal map is
connected for m; after unregister(m), m is unregistered and (provided the
invariant's connected-implies-registered direction held before) no signal of
the map is connected for m; connection state is pure membership, at most one
connection per (signal, model) uid (Nodup is preserved). -/
theorem C4_register_unregister_invariant (s : RegistryState) (cls : MClass)
    (cfg : TrackConfig) (sig : Signal) (hm : cls.isModel = true)
    (hdis : s.disable_auditlog = true → s.signals = []) :
    (contains (register s cls cfg).state cls = true) ∧
    (sig ∈ s.signals.map Prod.fst → (sig, cls) ∈ (register s cls cfg).state.connections) ∧
    (s.connections.Nodup → (register s cls cfg).state.connections.Nodup) ∧
    (contains (unregister s cls) cls = false) ∧
    (sig ∈ s.signals.map Prod.fst →
      (contains s cls = false → (sig, cls) ∉ s.connections) →
      (sig, cls) ∉ (unregister s cls).connections) ∧
    (s.connections.Nodup → (unregister s cls).connections.Nodup) := by
  have hreg : (register s cls cfg).state =
      connect_signals { s with registry := regInsert s.registry cls cfg } cls := by
    rw [register]
    simp [hm]
  refine ⟨?_, ?_, ?_, ?_, ?_, ?_⟩
  · rw [hreg, contains_iff, connect_signals_registry]
    exact regInsert_mem_keys s.registry cls cfg
  · intro hsig
    rw [hreg, connect_signals]
    split
    · rename_i hd
      rw [hdis hd] at hsig
      exact absurd hsig (by simp)
    · exact (connectAll_mem _ _ _ _).mpr (Or.inr ⟨hsig, rfl⟩)
  · intro hnd
    rw [hreg, connect_signals]
    split
    · exact hnd
    · exact connectAll_nodup _ _ _ hnd
  · rw [unregister]
    split
    · rw [contains_false_iff, disconnect_signals_registry]
      exact regErase_not_mem_keys s.registry cls
    · rename_i hc
      rw [contains_false_iff, ← contains_false_iff s cls]
      cases hcc : contains s cls
      · rfl
      · exact absurd hcc hc
  · intro hsig hinv
    rw [unregister]
    split
    · rename_i hc
      rw [disconnect_signals]
      split
      · rename_i hd
        rw [hdis hd] at hsig
        exact absurd hsig (by simp)
      · intro hmem
        exact ((disconnectAll_mem _ _ _ _).mp hmem).2 ⟨hsig, rfl⟩
    · rename_i hc
      cases hcc : contains s cls
      · exact hinv hcc
      · exact absurd hcc hc
  · intro hnd
    rw [unregister]
    split
    · rw [disconnect_signals]
      split
      · exact hnd
      · rw [disconnectAll_eq_filter]
        exact hnd.filter _
    · exact hnd

/-- C4 witness: from the default registry state, registering and
unregistering mA shows the invariant post-conditions at a concrete input. -/
theorem C4_register_unregister_invariant_witness :
    contains (register sInit mA cfg0).state mA = true ∧
    contains (unregister sInit mA) mA = false :=
  ⟨(C4_register_unregister_invariant sInit mA cfg0 Signal.post_save (by decide)
      (by decide)).1,
   (C4_register_unregister_invariant sInit mA cfg0 Signal.post_save (by decide)
      (by decide)).2.2.2.1⟩

/-- C5 counterexample: register followed by unregister does not always
restore the prior state, even for a model not currently registered. After
register_m2m(mA) the class mA is not registered but has an m2m_changed
connection; register(mA) reuses that dispatch_uid (connect is a no-op for
it) and unregister(mA) disconnects it, so the round trip loses the
pre-existing connection. -/
theorem C5_counterexample :
    contains s5 mA = false ∧
    unregister (register s5 mA cfg0).state mA ≠ s5 := by
  constructor
  · decide
  · decide

/-- C5 (amended): register then unregister is a round trip restoring the
exact prior state, provided the model is not currently registered and no
signal of the signal map is already connected for it (the disconnect is
uid-keyed, so it removes exactly the connections register made). -/
theorem C5_register_unregister_roundtrip (s : RegistryState) (cls : MClass)
    (cfg : TrackConfig) (hm : cls.isModel = true)
    (hreg : contains s cls = false)
    (hconn : ∀ sig ∈ s.signals.map Prod.fst, (sig, cls) ∉ s.connections) :
    unregister (register s cls cfg).state cls = s := by
  obtain ⟨reg, conns, sigs, fl, dis⟩ := s
  have hkeys : cls ∉ reg.map Prod.fst := (contains_false_iff _ cls).mp hreg
  have hins : regInsert reg cls cfg = reg ++ [(cls, cfg)] :=
    regInsert_of_not_mem reg cls cfg hkeys
  have herase : regErase (reg ++ [(cls, cfg)]) cls = reg :=
    regErase_append_self reg cls cfg hkeys
  have hregstep : (register (RegistryState.mk reg conns sigs fl dis) cls cfg).state =
      connect_signals (RegistryState.mk (reg ++ [(cls, cfg)]) conns sigs fl dis) cls := by
    rw [register]
    simp only [hm, if_true]
    rw [hins]
  rw [hregstep]
  cases dis with
  | true =>
    rw [connect_signals, if_pos rfl, unregister]
    have hcont : contains (RegistryState.mk (reg ++ [(cls, cfg)]) conns sigs fl true) cls = true := by
      rw [contains_iff]
      simp
    rw [if_pos hcont, disconnect_signals, if_pos rfl]
    simp only [herase]
  | false =>
    rw [connect_signals, if_neg (by simp)]
    obtain ⟨extra, hfold, hextra⟩ := connectAll_structure sigs cls conns
    simp only [hfold]
    rw [unregister]
    have hcont : contains (RegistryState.mk (reg ++ [(cls, cfg)]) (conns ++ extra) sigs fl false)
        cls = true := by
      rw [contains_iff]
      simp
    rw [if_pos hcont, disconnect_signals, if_neg (by simp)]
    simp only [herase]
    have hdisc : sigs.foldl (fun c sg => disconnectOne c sg.1 cls) (conns ++ extra) = conns := by
      rw [disconnectAll_eq_filter, List.filter_append]
      have h1 : conns.filter
          (fun x => !((sigs.map Prod.fst).contains x.1 && x.2 == cls)) = conns := by
        apply List.filter_eq_self.mpr
        intro x hx
        by_cases hk : x.1 ∈ sigs.map Prod.fst
        · by_cases hx2 : x.2 = cls
          · exfalso
            apply hconn x.1 hk
            have : x = (x.1, cls) := by
              rw [← hx2]
            rw [← this]
            exact hx
          · simp [List.elem_eq_mem, hk, beq_eq_decide, hx2]
        · simp [List.elem_eq_mem, hk]
      have h2 : extra.filter
          (fun x => !((sigs.map Prod.fst).contains x.1 && x.2 == cls)) = [] := by
        apply List.filter_eq_nil_iff.mpr
        intro x hx
        obtain ⟨hk, hx2⟩ := hextra x hx
        simp [List.elem_eq_mem, hk, beq_eq_decide, hx2]
      rw [h1, h2, List.append_nil]
    rw [hdisc]

/-- C5 witness: the round trip at concrete clean inputs returns exactly the
initial registry state. -/
theorem C5_register_unregister_roundtrip_witness :
    unregister (register sInit mA cfg0).state mA = sInit :=
  C5_register_unregister_roundtrip sInit mA cfg0 (by decide) (by decide)
    (by decide)

/-- C6: the gating flags compose conjunctively: can_create equals
enable_create AND enable_all (likewise update/delete); after
disable_signals() all three can_* are false regardless of the individual
flags; after enable_signals() each can_* equals its individual flag. -/
theorem C6_flags_conjunctive (f : Flags) (s : RegistryState) (b1 b2 : Bool) :
    (can_create f = (f.enable_create && f.enable_all)) ∧
    (can_update f = (f.enable_update && f.enable_all)) ∧
    (can_delete f = (f.enable_delete && f.enable_all)) ∧
    (can_create (disable_signals s b1).flags = false) ∧
    (can_update (disable_signals s b1).flags = false) ∧
    (can_delete (disable_signals s b1).flags = false) ∧
    (can_create (enable_signals s b2).flags = s.flags.enable_create) ∧
    (can_update (enable_signals s b2).flags = s.flags.enable_update) ∧
    (can_delete (enable_signals s b2).flags = s.flags.enable_delete) := by
  rw [disable_signals_flags, enable_signals_flags]
  unfold can_create can_update can_delete
  simp

/-- C7: log_update writes an UPDATE entry with changes
json.dumps(model_instance_diff(old, new)) exactly when the instance has a
pk, can_update holds, the previous record exists (DoesNotExist writes
nothing), and the diff is non-empty; at most one entry per invocation. -/
theorem C7_log_update_characterization (db : Int → Option Instance)
    (inst : Instance) (flags : Flags) :
    ((log_update db inst flags ≠ []) ↔
      ∃ pk old, inst.pk = some pk ∧ can_update flags = true ∧ db pk = some old ∧
        model_instance_diff (some old.fields) (some inst.fields) ≠ []) ∧
    (∀ e ∈ log_update db inst flags,
      e.action = Action.UPDATE ∧ e.targetPk = inst.pk ∧
      ∃ pk old, inst.pk = some pk ∧ db pk = some old ∧
        e.changes = jsonDumpsDiff (model_instance_diff (some old.fields) (some inst.fields))) ∧
    (log_update db inst flags).length ≤ 1 := by
  unfold log_update
  cases hpk : inst.pk with
  | none => simp [hpk]
  | some pk =>
    by_cases hcu : can_update flags = true
    · simp only [hcu, if_true]
      cases hdb : db pk with
      | none => simp [hdb]
      | some old =>
        dsimp only
        cases hdiff :
            (model_instance_diff (some old.fields) (some inst.fields)).isEmpty with
        | true =>
          have hnil : model_instance_diff (some old.fields) (some inst.fields) = [] :=
            List.isEmpty_iff.mp hdiff
          rw [if_pos rfl]
          refine ⟨?_, ?_, ?_⟩
          · simp only [ne_eq, not_true_eq_false, false_iff, not_exists]
            rintro pk2 old2 ⟨h1, _, h2, h3⟩
            injection h1 with h1
            subst h1
            rw [hdb] at h2
            injection h2 with h2
            subst h2
            exact h3 hnil
          · simp
          · simp
        | false =>
          have hne : model_instance_diff (some old.fields) (some inst.fields) ≠ [] := by
            intro h
            rw [h] at hdiff
            exact absurd hdiff (by simp)
          rw [if_neg (by simp)]
          refine ⟨?_, ?_, ?_⟩
          · constructor
            · intro _
              exact ⟨pk, old, rfl, trivial, hdb, hne⟩
            · intro _
              simp
          · intro e he
            rw [List.mem_singleton] at he
            subst he
            exact ⟨rfl, rfl, pk, old, rfl, hdb, rfl⟩
          · simp
    · have hcu' : can_update flags = false := by
        cases hc : can_update flags
        · rfl
        · exact absurd hc hcu
      simp [hcu']

/-- C7 witness: a concrete changed instance produces an UPDATE entry. -/
theorem C7_log_update_characterization_witness :
    log_update db0 inst1 flagsAllOn ≠ [] :=
  (C7_log_update_characterization db0 inst1 flagsAllOn).1.mpr
    ⟨1, inst0, rfl, by decide, by decide, by decide⟩

/-- C8: for every class that is not a subclass of Model, register and
register_m2m raise TypeError and leave the registry state unchanged: the
model is not added and no signal is connected. -/
theorem C8_typeerror_atomic (s : RegistryState) (cls : MClass) (cfg : TrackConfig)
    (h : cls.isModel = false) :
    register s cls cfg = { err := some RegError.typeError, state := s } ∧
    register_m2m s cls = { err := some RegError.typeError, state := s } := by
  constructor
  · rw [register, if_neg (by simp [h])]
  · rw [register_m2m, if_neg (by simp [h])]

/-- C8 witness: registering the non-model class mBad raises TypeError and
keeps the fresh registry state. -/
theorem C8_typeerror_atomic_witness :
    register sInit mBad cfg0 = { err := some RegError.typeError, state := sInit } ∧
    register_m2m sInit mBad = { err := some RegError.typeError, state := sInit } :=
  C8_typeerror_atomic sInit mBad cfg0 (by decide)

/-- C9: log_m2m_changed never propagates an exception (an error from the body
is caught and yields no entries), and it creates entries — one UPDATE entry
per parent matched by pk_set — only when the action string contains "post_"
and pk_set is truthy, so pre_* actions and clear events with an empty or
None pk_set never produce an entry. -/
theorem C9_log_m2m_changed_safe (modelDb : List Instance) (inst : Instance)
    (action : String) (pk_set : Option (List Int)) (sname : String) :
    (¬(containsPost action.toList = true ∧ pkSetTruthy pk_set = true) →
      log_m2m_changed modelDb inst action pk_set sname = []) ∧
    (∀ err, log_m2m_changed_body modelDb inst action (pk_set.getD []) sname =
        Except.error err →
      log_m2m_changed modelDb inst action pk_set sname = []) ∧
    (∀ e ∈ log_m2m_changed modelDb inst action pk_set sname,
      e.action = Action.UPDATE) ∧
    (log_m2m_changed modelDb inst action pk_set sname ≠ [] →
      containsPost action.toList = true ∧ pkSetTruthy pk_set = true ∧
      (log_m2m_changed modelDb inst action pk_set sname).length =
        (matchedParents modelDb (pk_set.getD [])).length) := by
  unfold log_m2m_changed
  by_cases hg : (containsPost action.toList && pkSetTruthy pk_set) = true
  · rw [if_pos hg]
    obtain ⟨hg1, hg2⟩ := Bool.and_eq_true_iff.mp hg
    cases hbody : log_m2m_changed_body modelDb inst action (pk_set.getD []) sname with
    | error err =>
      refine ⟨fun _ => rfl, fun _ _ => rfl, by simp, fun h => absurd rfl h⟩
    | ok l =>
      refine ⟨fun hcon => absurd ⟨hg1, hg2⟩ hcon, ?_, ?_, ?_⟩
      · intro err herr
        exact absurd herr (by simp)
      · intro e he
        rw [log_m2m_changed_body] at hbody
        split at hbody
        · exact absurd hbody (by simp)
        · rename_i a hlook
          have ha : a = Action.UPDATE := actionEnumLookup_eq_update _ a hlook
          injection hbody with hbody
          subst hbody
          obtain ⟨parent, _, hpe⟩ := List.mem_map.mp he
          rw [← hpe, mkM2MEntry, ha]
      · intro _
        refine ⟨hg1, hg2, ?_⟩
        rw [log_m2m_changed_body] at hbody
        split at hbody
        · exact absurd hbody (by simp)
        · injection hbody with hbody
          subst hbody
          exact List.length_map _ _
  · rw [if_neg hg]
    have hng : ¬(containsPost action.toList = true ∧ pkSetTruthy pk_set = true) := by
      intro ⟨h1, h2⟩
      exact hg (by rw [Bool.and_eq_true_iff]; exact ⟨h1, h2⟩)
    exact ⟨fun _ => rfl, fun _ _ => rfl, by simp, fun h => absurd rfl h⟩

/-- C9 witness: a pre_add action writes nothing. -/
theorem C9_log_m2m_changed_safe_witness :
    log_m2m_changed modelDb0 inst1 "pre_add" (some [1]) "m_through" = [] :=
  (C9_log_m2m_changed_safe modelDb0 inst1 "pre_add" (some [1]) "m_through").1
    (by decide)

/-- C10: under disable_auditlog the constructor leaves the signal map empty,
_connect_signals and _disconnect_signals return immediately, and register
still records the model (contains becomes true) while connecting nothing. -/
theorem C10_disable_auditlog (c u d : Bool) (custom : List (Signal × Receiver))
    (s : RegistryState) (cls : MClass) (cfg : TrackConfig)
    (hm : cls.isModel = true) (hd : s.disable_auditlog = true) :
    initSignals c u d true custom = [] ∧
    connect_signals s cls = s ∧
    disconnect_signals s cls = s ∧
    (register (initState c u d true custom) cls cfg).err = none ∧
    contains (register (initState c u d true custom) cls cfg).state cls = true ∧
    (register (initState c u d true custom) cls cfg).state.connections = [] := by
  have hsig : initSignals c u d true custom = [] := by
    rw [initSignals, if_pos rfl]
  have hregeq : (register (initState c u d true custom) cls cfg).state =
      connect_signals
        { initState c u d true custom with
          registry := regInsert [] cls cfg } cls := by
    rw [register]
    simp [hm, initState]
  refine ⟨hsig, ?_, ?_, ?_, ?_, ?_⟩
  · rw [connect_signals, if_pos hd]
  · rw [disconnect_signals, if_pos hd]
  · rw [register]
    simp [hm]
  · rw [hregeq, contains_iff, connect_signals_registry]
    exact regInsert_mem_keys [] cls cfg
  · rw [hregeq, connect_signals, if_pos (by simp [initState])]
    simp [initState]

/-- C10 witness: with disable_auditlog set, registering mA records it but
connects nothing. -/
theorem C10_disable_auditlog_witness :
    contains (register (initState true true true true []) mA cfg0).state mA = true ∧
    (register (initState true true true true []) mA cfg0).state.connections = [] :=
  ⟨(C10_disable_auditlog true true true [] sInitDisabled mA cfg0 (by decide)
      (by decide)).2.2.2.2.1,
   (C10_disable_auditlog true true true [] sInitDisabled mA cfg0 (by decide)
      (by decide)).2.2.2.2.2⟩

end Auditlog
